import Mathlib

/-!
Verification of the connection-pool / metadata-cache / relationship-resolver
core of the powerbi-mcp repository, as a shallow embedding in Lean 4.

Python datetimes are modelled as natural numbers (a totally ordered clock);
Python exceptions as the Except monad; Python dicts either as functions
into Option or as explicit association folds matching the insertion order
of the source.  Strings are Lean strings.  Each definition is translated
from the named source function.
-/

namespace PowerBI

/-- A datetime value, totally ordered. -/
abbrev DT := Nat

/- ===================== Metadata cache validity ===================== -/

/-- Embeds PowerBIConnector._is_cache_valid (src/models/connector.py, lines
232-241): cached marker None means valid exactly when the current marker is
also None; a known cached marker with an unknown current marker is valid;
two known markers are valid iff the cached one is at least the current one. -/
def isCacheValid (cachedMarker currentMarker : Option DT) : Bool :=
  match cachedMarker with
  | none =>
    match currentMarker with
    | none => true
    | some _ => false
  | some v1 =>
    match currentMarker with
    | none => true
    | some v2 => decide (v1 ≥ v2)

/- ===================== Freshness oracle ===================== -/

/-- A cell of a DMV result row: some d when the cell holds a datetime d,
none when it holds anything else (None, a string, a missing column). -/
abbrev Cell := Option DT

/-- The per-value update of the running maximum in
_get_model_last_update_marker: for d in (last_schema, last_data):
if isinstance(d, datetime): if last_seen is None or d > last_seen. -/
def updateLastSeen (lastSeen : Option DT) (d : Cell) : Option DT :=
  match d with
  | none => lastSeen
  | some v =>
    match lastSeen with
    | none => some v
    | some m => if v > m then some v else lastSeen

/-- One row of the marker query: last_schema = row[0] if len(row) > 0 else
None; last_data = row[1] if len(row) > 1 else None; fold both through the
running maximum. -/
def updateRow (lastSeen : Option DT) (row : List Cell) : Option DT :=
  let lastSchema : Cell := (row.get? 0).bind id
  let lastData : Cell := (row.get? 1).bind id
  updateLastSeen (updateLastSeen lastSeen lastSchema) lastData

/-- Embeds PowerBIConnector._get_model_last_update_marker
(src/models/connector.py, lines 243-301).  Inputs model the environment:
whether the Pyadomd library resolves, whether a connection string is set,
and the outcome of the DMV query (an exception, or the fetched rows; a
None fetchall result is folded into the empty row list by the "or []" in
the source).  Every exception path returns None. -/
def getModelLastUpdateMarker (pyadomdAvailable : Bool)
    (connectionString : Option String)
    (queryResult : Except String (List (List Cell))) : Option DT :=
  if !pyadomdAvailable then none
  else
    match connectionString with
    | none => none
    | some _ =>
      match queryResult with
      | .error _ => none
      | .ok rows =>
        if rows.isEmpty then none
        else rows.foldl updateRow none

/-- The multiset of datetime values appearing in the first two columns
(last-schema-update, last-data-update) across all rows. -/
def markerCells (rows : List (List Cell)) : List DT :=
  rows.foldr (fun row acc =>
    (((row.get? 0).bind id).toList ++ ((row.get? 1).bind id).toList) ++ acc) []

/- ===================== Relationship resolver ===================== -/

/-- Embeds RelationshipService._format_cardinality
(src/models/services/relationship_service.py, lines 216-221):
cardinality_map = 1 -> One, 2 -> Many, anything else Unknown. -/
def formatCardinality (fromCardinality toCardinality : Nat) : String :=
  let fromCard := if fromCardinality = 1 then "One"
    else if fromCardinality = 2 then "Many" else "Unknown"
  let toCard := if toCardinality = 1 then "One"
    else if toCardinality = 2 then "Many" else "Unknown"
  fromCard ++ "-to-" ++ toCard

/-- Embeds RelationshipService._format_cross_filter (lines 223-226):
filter_map = 1 Single, 2 Both, 3 Automatic, 4 None, else Unknown. -/
def formatCrossFilter (crossFilterBehavior : Nat) : String :=
  if crossFilterBehavior = 1 then "Single"
  else if crossFilterBehavior = 2 then "Both"
  else if crossFilterBehavior = 3 then "Automatic"
  else if crossFilterBehavior = 4 then "None"
  else "Unknown"

/-- A value stored in a Python relationship dict: a string or a bool. -/
inductive PyVal where
  | s (v : String)
  | b (v : Bool)
deriving DecidableEq, Repr

/-- A Python dict with string keys, kept as the ordered key/value list the
source builds literally. -/
abbrev PyDict := List (String × PyVal)

/-- Row of $SYSTEM.TMSCHEMA_TABLES as fetched by the batch path:
(Name, ID). -/
structure RawTable where
  name : String
  id : Nat
deriving DecidableEq, Repr

/-- Row of $SYSTEM.TMSCHEMA_COLUMNS as fetched by the batch path:
(ID, ExplicitName, TableID). -/
structure RawColumn where
  id : Nat
  explicitName : String
  tableId : Nat
deriving DecidableEq, Repr

/-- Row of $SYSTEM.TMSCHEMA_RELATIONSHIPS as fetched by the batch path:
(FromTableID, ToTableID, FromColumnID, ToColumnID, IsActive, Type,
CrossFilteringBehavior, FromCardinality, ToCardinality). -/
structure RawRel where
  fromTableId : Nat
  toTableId : Nat
  fromColumnId : Nat
  toColumnId : Nat
  isActive : Bool
  relType : Nat
  crossFilteringBehavior : Nat
  fromCardinality : Nat
  toCardinality : Nat
deriving DecidableEq, Repr

/-- The column info stored in column_id_to_info: name and table_id. -/
structure ColInfo where
  name : String
  tableId : Nat
deriving DecidableEq, Repr

/-- table_id_to_name built by get_all_relationships (lines 117-123): a dict
filled in list order (later rows overwrite earlier ones), skipping rows
whose Name is falsy (empty). -/
def buildTableIdToName (ts : List RawTable) : Nat → Option String :=
  ts.foldl (fun m t =>
    if t.name ≠ "" then fun i => if i = t.id then some t.name else m i
    else m) (fun _ => none)

/-- column_id_to_info built by get_all_relationships (lines 132-136): filled
in list order, skipping rows whose ID is falsy (0) or whose ExplicitName is
falsy (empty). -/
def buildColumnIdToInfo (cs : List RawColumn) : Nat → Option ColInfo :=
  cs.foldl (fun m c =>
    if c.id ≠ 0 ∧ c.explicitName ≠ "" then
      fun i => if i = c.id then some ⟨c.explicitName, c.tableId⟩ else m i
    else m) (fun _ => none)

/-- Python truthiness of an optional string: None and the empty string are
falsy (the source tests "if not from_table_name"). -/
def truthyStr (o : Option String) : Option String :=
  match o with
  | none => none
  | some s => if s = "" then none else some s

/-- The dict appended to the from-side table list (lines 177-187). -/
def fromSideView (toTableName fromColName toColName : String)
    (fromCardinality toCardinality : Nat) (isActive : Bool)
    (crossFilter : Nat) : PyDict :=
  [("relatedTable", .s toTableName),
   ("fromColumn", .s fromColName),
   ("toColumn", .s toColName),
   ("cardinality", .s (formatCardinality fromCardinality toCardinality)),
   ("isActive", .b isActive),
   ("crossFilterDirection", .s (formatCrossFilter crossFilter)),
   ("relationshipType", .s "Many-to-One")]

/-- The dict appended to the to-side table list (lines 190-201): columns and
cardinality arguments swapped, relationshipType One-to-Many. -/
def toSideView (fromTableName fromColName toColName : String)
    (fromCardinality toCardinality : Nat) (isActive : Bool)
    (crossFilter : Nat) : PyDict :=
  [("relatedTable", .s fromTableName),
   ("fromColumn", .s toColName),
   ("toColumn", .s fromColName),
   ("cardinality", .s (formatCardinality toCardinality fromCardinality)),
   ("isActive", .b isActive),
   ("crossFilterDirection", .s (formatCrossFilter crossFilter)),
   ("relationshipType", .s "One-to-Many")]

/-- The result map of get_all_relationships, a Python dict from table name
to a list of relationship dicts. -/
abbrev RelMap := String → Option (List PyDict)

/-- table_relationships = \x7bname: [] for name in table_names\x7d (line 152). -/
def emptyRelMap (tableNames : List String) : RelMap :=
  fun s => if s ∈ tableNames then some [] else none

/-- table_relationships[k].append(r), guarded by k in table_relationships:
when the key is absent nothing happens (Option.map). -/
def appendRel (m : RelMap) (k : String) (r : PyDict) : RelMap :=
  fun s => if s = k then (m k).map (fun l => l ++ [r]) else m s

/-- Processing of one relationship row in the batch loop (lines 154-201):
resolve both table names (falsy means skip), both column infos (missing
means skip), then append the from-side view and the to-side view. -/
def processRel (tmap : Nat → Option String) (cmap : Nat → Option ColInfo)
    (m : RelMap) (r : RawRel) : RelMap :=
  match truthyStr (tmap r.fromTableId), truthyStr (tmap r.toTableId) with
  | some fromTableName, some toTableName =>
    match cmap r.fromColumnId, cmap r.toColumnId with
    | some fromColInfo, some toColInfo =>
      let m1 := appendRel m fromTableName
        (fromSideView toTableName fromColInfo.name toColInfo.name
          r.fromCardinality r.toCardinality r.isActive r.crossFilteringBehavior)
      appendRel m1 toTableName
        (toSideView fromTableName fromColInfo.name toColInfo.name
          r.fromCardinality r.toCardinality r.isActive r.crossFilteringBehavior)
    | _, _ => m
  | _, _ => m

/-- The batch path of RelationshipService.get_all_relationships
(lines 104-203) given the three fetched row sets: build the two id maps,
then fold every relationship row into the per-table map. -/
def getAllRelationshipsBatch (ts : List RawTable) (cs : List RawColumn)
    (rs : List RawRel) (tableNames : List String) : RelMap :=
  let tmap := buildTableIdToName ts
  let cmap := buildColumnIdToInfo cs
  rs.foldl (processRel tmap cmap) (emptyRelMap tableNames)

/-- Row of the per-table relationship query of get_table_relationships
(lines 44-59): (FromTable, FromColumn, ToTable, ToColumn, FromCardinality,
ToCardinality, CrossFilteringBehavior). -/
structure RelRow where
  fromTable : String
  fromColumn : String
  toTable : String
  toColumn : String
  fromCardinality : Nat
  toCardinality : Nat
  crossFilter : Nat
deriving DecidableEq, Repr

/-- The dict built for one row by get_table_relationships (lines 75-96):
direction from the perspective of the requested table, cardinality always
formatted with the stored from/to order. -/
def perTableView (tableName : String) (row : RelRow) : PyDict :=
  if row.fromTable = tableName then
    [("direction", .s "outgoing"),
     ("related_table", .s row.toTable),
     ("local_column", .s row.fromColumn),
     ("related_column", .s row.toColumn),
     ("cardinality", .s (formatCardinality row.fromCardinality row.toCardinality)),
     ("cross_filter", .s (formatCrossFilter row.crossFilter))]
  else
    [("direction", .s "incoming"),
     ("related_table", .s row.fromTable),
     ("local_column", .s row.toColumn),
     ("related_column", .s row.fromColumn),
     ("cardinality", .s (formatCardinality row.fromCardinality row.toCardinality)),
     ("cross_filter", .s (formatCrossFilter row.crossFilter))]

/-- Embeds RelationshipService.get_table_relationships (lines 31-102).
connected and pyadomdAvailable model the two checks that raise before the
try block; queryResult models the engine round trip.  The internal except
clause turns any query failure into an empty list. -/
def getTableRelationships (connected pyadomdAvailable : Bool)
    (queryResult : Except String (List RelRow)) (tableName : String) :
    Except String (List PyDict) :=
  if !connected then .error "Not connected to Power BI"
  else if !pyadomdAvailable then .error "Pyadomd library not available"
  else
    match queryResult with
    | .error _ => .ok []
    | .ok rows => .ok (rows.map (perTableView tableName))

/-- The value assigned to one table by the fallback loop of
get_all_relationships (lines 209-213): its own get_table_relationships
result, any raised failure becoming []. -/
def fallbackValue (connected pyadomdAvailable : Bool)
    (perTableQuery : String → Except String (List RelRow)) (t : String) :
    List PyDict :=
  match getTableRelationships connected pyadomdAvailable (perTableQuery t) t with
  | .ok l => l
  | .error _ => []

/-- One iteration of the fallback loop: table_relationships[table_name] = v. -/
def fallbackStep (connected pyadomdAvailable : Bool)
    (perTableQuery : String → Except String (List RelRow))
    (m : RelMap) (t : String) : RelMap :=
  fun s => if s = t then some (fallbackValue connected pyadomdAvailable perTableQuery t)
    else m s

/-- The fallback loop of get_all_relationships (lines 205-214): start from
the empty map, then assign each requested table its own
get_table_relationships result in order. -/
def getAllRelationshipsFallback (connected pyadomdAvailable : Bool)
    (perTableQuery : String → Except String (List RelRow))
    (tableNames : List String) : RelMap :=
  tableNames.foldl (fallbackStep connected pyadomdAvailable perTableQuery)
    (emptyRelMap tableNames)

/-- Embeds RelationshipService.get_all_relationships (lines 104-214) in
full: batchFetch models the whole batched round trip (connection plus the
three queries); on any failure the except clause runs the per-table
fallback. -/
def getAllRelationships
    (batchFetch : Except String (List RawTable × List RawColumn × List RawRel))
    (connected pyadomdAvailable : Bool)
    (perTableQuery : String → Except String (List RelRow))
    (tableNames : List String) : RelMap :=
  match batchFetch with
  | .ok (ts, cs, rs) => getAllRelationshipsBatch ts cs rs tableNames
  | .error _ =>
    getAllRelationshipsFallback connected pyadomdAvailable perTableQuery tableNames

/-- Modelled external engine semantics for the per-table SQL of
get_table_relationships (lines 44-59): the inner joins of
TMSCHEMA_RELATIONSHIPS with TMSCHEMA_COLUMNS and TMSCHEMA_TABLES on the
stored ids, filtered to rows where the requested table is either endpoint.
Keyed lookups are modelled by List.find?, which agrees with the SQL join
whenever ids are unique. -/
def perTableQueryRows (ts : List RawTable) (cs : List RawColumn)
    (rs : List RawRel) (tableName : String) : List RelRow :=
  rs.filterMap (fun r =>
    match cs.find? (fun c => c.id = r.fromColumnId) with
    | none => none
    | some fc =>
      match ts.find? (fun t => t.id = fc.tableId) with
      | none => none
      | some ft =>
        match cs.find? (fun c => c.id = r.toColumnId) with
        | none => none
        | some tc =>
          match ts.find? (fun t => t.id = tc.tableId) with
          | none => none
          | some tt =>
            if ft.name = tableName ∨ tt.name = tableName then
              some ⟨ft.name, fc.explicitName, tt.name, tc.explicitName,
                r.fromCardinality, r.toCardinality, r.crossFilteringBehavior⟩
            else none)

/- ===================== Connection pool ===================== -/

/-- A pooled entry as stored in connector_pool: the connector (only its
connected flag matters to the pool logic) and last_used. -/
structure PoolEntry where
  connected : Bool
  lastUsed : DT
deriving DecidableEq, Repr

/-- The handler state touched by _get_or_create_connected_connector: the
pool map, plus an instrumentation counter of how many times
PowerBIConnector.connect has been invoked. -/
structure PoolState where
  pool : String → Option PoolEntry
  connectCount : Nat

/-- Embeds PowerBIHandlers._make_pool_key (src/api/handlers.py, lines
101-108): the four identity fields joined by a bar, missing tenant and
client id rendered as the empty string.  The client secret is not an
input. -/
def makePoolKey (xmlaEndpoint initialCatalog : String)
    (tenantId clientId : Option String) : String :=
  xmlaEndpoint ++ "|" ++ initialCatalog ++ "|" ++ tenantId.getD "" ++ "|" ++
    clientId.getD ""

/-- Embeds PowerBIHandlers._cleanup_pool_locked (lines 110-121): delete
every entry whose idle time strictly exceeds the TTL.  Nat subtraction
truncates at zero exactly as a non-positive timedelta never exceeds a
non-negative TTL. -/
def cleanupPool (pool : String → Option PoolEntry) (now ttl : Nat) :
    String → Option PoolEntry :=
  fun k =>
    match pool k with
    | none => none
    | some e => if now - e.lastUsed > ttl then none else some e

/-- Embeds PowerBIHandlers._get_or_create_connected_connector (lines
123-161) for one lookup.  now is the datetime.utcnow() taken at entry,
now2 the one taken when a connect result is stored; connectResult models
PowerBIConnector.connect, which sets connected to true on success and
raises on failure.  The returned state always reflects the mutations made
before any raise; the second component is the outcome seen by the caller. -/
def getOrCreate (st : PoolState) (key : String) (now now2 ttl : Nat)
    (connectResult : Except String Unit) : PoolState × Except String Unit :=
  match cleanupPool st.pool now ttl key with
  | some e =>
    if e.connected then
      ({ pool := fun k => if k = key then some ⟨e.connected, now⟩
           else cleanupPool st.pool now ttl k,
         connectCount := st.connectCount }, .ok ())
    else
      match connectResult with
      | .error msg =>
        ({ pool := fun k => if k = key then some ⟨e.connected, now⟩
             else cleanupPool st.pool now ttl k,
           connectCount := st.connectCount + 1 }, .error msg)
      | .ok () =>
        ({ pool := fun k => if k = key then some ⟨true, now2⟩
             else if k = key then some ⟨e.connected, now⟩
             else cleanupPool st.pool now ttl k,
           connectCount := st.connectCount + 1 }, .ok ())
  | none =>
    match connectResult with
    | .error msg =>
      ({ pool := cleanupPool st.pool now ttl,
         connectCount := st.connectCount + 1 }, .error msg)
    | .ok () =>
      ({ pool := fun k => if k = key then some ⟨true, now2⟩
           else cleanupPool st.pool now ttl k,
         connectCount := st.connectCount + 1 }, .ok ())

/-- The pool state with no entries. -/
def emptyPoolState : PoolState := { pool := fun _ => none, connectCount := 0 }

/-- Run a sequence of lookups for one key, each with its (now, now2) pair,
connect always succeeding. -/
def runLookups (st : PoolState) (key : String) (ttl : Nat) :
    List (Nat × Nat) → PoolState
  | [] => st
  | (now, now2) :: rest =>
    runLookups (getOrCreate st key now now2 ttl (.ok ())).1 key ttl rest

/-- Each lookup time is within the TTL window of the previous stamp:
now - prev ≤ ttl, with prev advancing to the now just used. -/
def chainWithinTTL (ttl : Nat) : Nat → List Nat → Prop
  | _, [] => True
  | prev, now :: rest => now - prev ≤ ttl ∧ chainWithinTTL ttl now rest

instance : ∀ ttl prev l, Decidable (chainWithinTTL ttl prev l) := by
  intro ttl prev l
  induction l generalizing prev with
  | nil => exact isTrue trivial
  | cons now rest ih =>
    haveI := ih now
    exact instDecidableAnd

/- ===================== Connection identity ===================== -/

/-- The connector state written by PowerBIConnector.connect
(src/models/connector.py, lines 82-122) before the connection test: the
secret-bearing connection string, the secret-free identity, and the model
cache key built from endpoint and catalog only. -/
structure ConnectorIdentity where
  connectionString : String
  xmlaEndpoint : String
  initialCatalog : String
  modelKey : String
deriving DecidableEq, Repr

/-- The assignments of PowerBIConnector.connect (lines 87-100). -/
def connectSetIdentity (xmlaEndpoint tenantId clientId clientSecret
    initialCatalog : String) : ConnectorIdentity :=
  { connectionString :=
      "Provider=MSOLAP;Data Source=" ++ xmlaEndpoint ++
      ";Initial Catalog=" ++ initialCatalog ++
      ";User ID=app:" ++ clientId ++ "@" ++ tenantId ++
      ";Password=" ++ clientSecret ++ ";"
    xmlaEndpoint := xmlaEndpoint
    initialCatalog := initialCatalog
    modelKey := xmlaEndpoint ++ "|" ++ initialCatalog }

/- ===================== Metadata cache: table schemas ===================== -/

/-- A per-table schema cache entry: \x7b"data": ..., "version": ...\x7d. -/
structure SchemaEntry (α : Type) where
  data : α
  version : Option DT
deriving DecidableEq, Repr

/-- A per-model cache entry of _model_cache: version, tables,
table_schemas. -/
structure ModelEntry (α β : Type) where
  version : Option DT
  tables : Option β
  tableSchemas : String → Option (SchemaEntry α)

/-- The whole _model_cache map. -/
abbrev ModelCache (α β : Type) := String → Option (ModelEntry α β)

/-- The cached-schema lookup of PowerBIConnector.get_table_schema (lines
161-170): model entry present, table entry present, and the entry valid
against the current marker. -/
def cachedSchemaLookup {α β : Type} (cache : ModelCache α β)
    (cacheKey tableName : String) (currentMarker : Option DT) : Option α :=
  match cache cacheKey with
  | none => none
  | some entry =>
    match entry.tableSchemas tableName with
    | none => none
    | some te => if isCacheValid te.version currentMarker then some te.data else none

/-- Embeds PowerBIConnector.get_table_schema (lines 153-183) given the
current marker and the freshly fetched schema: on a valid cached entry
return it unchanged; otherwise store the fetch under the table name with
the current marker, creating the model entry if absent (setdefault) and
backfilling the model-level version when it was None.  Returns the new
cache and the returned schema. -/
def getTableSchemaCached {α β : Type} (cache : ModelCache α β)
    (cacheKey tableName : String) (currentMarker : Option DT) (fetched : α) :
    ModelCache α β × α :=
  match cachedSchemaLookup cache cacheKey tableName currentMarker with
  | some data => (cache, data)
  | none =>
    let entry : ModelEntry α β :=
      match cache cacheKey with
      | some e => e
      | none => { version := none, tables := none, tableSchemas := fun _ => none }
    let newSchemas := fun t =>
      if t = tableName then some ⟨fetched, currentMarker⟩ else entry.tableSchemas t
    let newVersion := match entry.version with
      | none => currentMarker
      | some v => some v
    let newEntry : ModelEntry α β :=
      { version := newVersion, tables := entry.tables, tableSchemas := newSchemas }
    (fun k => if k = cacheKey then some newEntry else cache k, fetched)

/-- The table-schema entry stored for a table in a model, if any. -/
def schemaAt {α β : Type} (cache : ModelCache α β) (cacheKey tableName : String) :
    Option (SchemaEntry α) :=
  match cache cacheKey with
  | none => none
  | some entry => entry.tableSchemas tableName

/- ===================== Helper vocabulary for the theorems ===================== -/

/-- The inner maximum update of _get_model_last_update_marker, as applied to
a value known to be a datetime. -/
def updateMax (a : Option DT) (v : DT) : Option DT :=
  match a with
  | none => some v
  | some m => if v > m then some v else a

/-- A pool containing exactly one entry. -/
def singlePool (key : String) (connected : Bool) (lastUsed : DT) :
    String → Option PoolEntry :=
  fun k => if k = key then some ⟨connected, lastUsed⟩ else none

/-- The (zero, one or two) views the batch loop attributes to table t for
one relationship row. -/
def relContrib (tmap : Nat → Option String) (cmap : Nat → Option ColInfo)
    (t : String) (r : RawRel) : List PyDict :=
  match truthyStr (tmap r.fromTableId), truthyStr (tmap r.toTableId) with
  | some fromTableName, some toTableName =>
    match cmap r.fromColumnId, cmap r.toColumnId with
    | some fromColInfo, some toColInfo =>
      (if fromTableName = t then
        [fromSideView toTableName fromColInfo.name toColInfo.name
          r.fromCardinality r.toCardinality r.isActive r.crossFilteringBehavior]
       else []) ++
      (if toTableName = t then
        [toSideView fromTableName fromColInfo.name toColInfo.name
          r.fromCardinality r.toCardinality r.isActive r.crossFilteringBehavior]
       else [])
    | _, _ => []
  | _, _ => []

/-- All views the batch loop attributes to table t, in loop order. -/
def batchRecsFor (tmap : Nat → Option String) (cmap : Nat → Option ColInfo)
    (t : String) : List RawRel → List PyDict
  | [] => []
  | r :: rest => relContrib tmap cmap t r ++ batchRecsFor tmap cmap t rest

/-- The datetime values contributed by one row of the marker query. -/
def rowCells (row : List Cell) : List DT :=
  ((row.get? 0).bind id).toList ++ ((row.get? 1).bind id).toList

/-- Lookup in a Python dict modelled as an ordered key/value list. -/
def dictGet (d : PyDict) (k : String) : Option PyVal :=
  (d.find? (fun p => p.1 = k)).map Prod.snd

/-- The relationship edge described by a batch-path view: related table,
column of the owning table, column of the related table. -/
def edgeOfBatchView (d : PyDict) : Option PyVal × Option PyVal × Option PyVal :=
  (dictGet d "relatedTable", dictGet d "fromColumn", dictGet d "toColumn")

/-- The relationship edge described by a per-table fallback view. -/
def edgeOfPerTableView (d : PyDict) : Option PyVal × Option PyVal × Option PyVal :=
  (dictGet d "related_table", dictGet d "local_column", dictGet d "related_column")

/-- A relationship row is consistently resolvable against the raw table and
column lists: both column ids occur, the owning-table ids stored on the
relationship agree with those stored on the columns, both table ids occur,
and the two endpoint tables have distinct names. -/
def RelResolvable (ts : List RawTable) (cs : List RawColumn) (r : RawRel) :
    Prop :=
  ∃ fc tc ft tt,
    cs.find? (fun c => c.id = r.fromColumnId) = some fc ∧
    cs.find? (fun c => c.id = r.toColumnId) = some tc ∧
    ts.find? (fun a => a.id = fc.tableId) = some ft ∧
    ts.find? (fun a => a.id = tc.tableId) = some tt ∧
    fc.tableId = r.fromTableId ∧ tc.tableId = r.toTableId ∧
    ft.name ≠ tt.name

/- ===================== Theorems ===================== -/

/-- C1: the metadata-cache validity check is valid for unknown/unknown,
invalid for unknown cached versus known current, valid for known cached
versus unknown current, and for two known markers valid iff the cached
value is at least the current one. -/
theorem isCacheValid_table :
    isCacheValid none none = true ∧
    (∀ v : DT, isCacheValid none (some v) = false) ∧
    (∀ v : DT, isCacheValid (some v) none = true) ∧
    (∀ v1 v2 : DT, (isCacheValid (some v1) (some v2) = true ↔ v1 ≥ v2)) := by
  refine ⟨rfl, fun v => rfl, fun v => rfl, fun v1 v2 => ?_⟩
  simp [isCacheValid]

/-- updateLastSeen on a datetime cell is the maximum update. -/
theorem updateLastSeen_some (a : Option DT) (v : DT) :
    updateLastSeen a (some v) = updateMax a v := rfl

/-- updateLastSeen ignores non-datetime cells. -/
theorem updateLastSeen_none (a : Option DT) :
    updateLastSeen a none = a := rfl

theorem markerCells_cons (row : List Cell) (rest : List (List Cell)) :
    markerCells (row :: rest) = rowCells row ++ markerCells rest := rfl

theorem updateRow_eq_foldl (a : Option DT) (row : List Cell) :
    updateRow a row = (rowCells row).foldl updateMax a := by
  unfold updateRow rowCells
  cases h0 : (row.get? 0).bind id <;> cases h1 : (row.get? 1).bind id <;>
    simp [updateLastSeen_some, updateLastSeen_none, List.foldl]

theorem foldl_updateRow_eq (rows : List (List Cell)) (a : Option DT) :
    rows.foldl updateRow a = (markerCells rows).foldl updateMax a := by
  induction rows generalizing a with
  | nil => rfl
  | cons row rest ih =>
    rw [List.foldl_cons, ih, markerCells_cons, List.foldl_append,
      updateRow_eq_foldl]

theorem updateMax_ne_none (a : Option DT) (v : DT) : updateMax a v ≠ none := by
  unfold updateMax
  cases a with
  | none => simp
  | some m => by_cases h : v > m <;> simp [h]

theorem foldl_updateMax_none (l : List DT) (a : Option DT) :
    l.foldl updateMax a = none ↔ a = none ∧ l = [] := by
  induction l generalizing a with
  | nil => simp
  | cons v rest ih =>
    rw [List.foldl_cons, ih]
    simp [updateMax_ne_none a v]

theorem updateMax_spec (a : Option DT) (u x : DT) (h : updateMax a u = some x) :
    u ≤ x ∧ (∀ m, a = some m → m ≤ x) ∧ (x = u ∨ a = some x) := by
  unfold updateMax at h
  cases a with
  | none =>
    have hx : u = x := Option.some.inj h
    subst hx
    exact ⟨le_refl _, by simp, Or.inl rfl⟩
  | some m =>
    by_cases hgt : u > m
    · simp only [if_pos hgt] at h
      have hx : u = x := Option.some.inj h
      subst hx
      exact ⟨le_refl _, fun m' hm' => le_of_lt ((Option.some.inj hm') ▸ hgt),
        Or.inl rfl⟩
    · simp only [if_neg hgt] at h
      have hx : m = x := Option.some.inj h
      subst hx
      exact ⟨le_of_not_lt hgt, fun m' hm' => le_of_eq (Option.some.inj hm').symm,
        Or.inr rfl⟩

theorem foldl_updateMax_some (l : List DT) (a : Option DT) (v : DT)
    (h : l.foldl updateMax a = some v) :
    (a = some v ∨ v ∈ l) ∧ (∀ w ∈ l, w ≤ v) ∧ (∀ m, a = some m → m ≤ v) := by
  induction l generalizing a with
  | nil =>
    refine ⟨Or.inl h, by simp, fun m hm => ?_⟩
    rw [hm] at h
    exact le_of_eq (Option.some.inj h)
  | cons u rest ih =>
    rw [List.foldl_cons] at h
    obtain ⟨hmem, hub, hacc⟩ := ih (updateMax a u) h
    obtain ⟨x, hx⟩ : ∃ x, updateMax a u = some x :=
      Option.ne_none_iff_exists'.mp (updateMax_ne_none a u)
    have hxv : x ≤ v := hacc x hx
    obtain ⟨hux, hax, hxor⟩ := updateMax_spec a u x hx
    refine ⟨?_, ?_, ?_⟩
    · rcases hmem with hm | hm
      · rw [hx] at hm
        have hxv' : x = v := Option.some.inj hm
        subst hxv'
        rcases hxor with hxu | hax'
        · exact Or.inr (List.mem_cons.mpr (Or.inl hxu))
        · exact Or.inl hax'
      · exact Or.inr (List.mem_cons_of_mem _ hm)
    · intro w hw
      rcases List.mem_cons.mp hw with hw | hw
      · exact hw ▸ le_trans hux hxv
      · exact hub w hw
    · intro m hm
      exact le_trans (hax m hm) hxv

theorem marker_ok_eq (c : String) (rows : List (List Cell)) :
    getModelLastUpdateMarker true (some c) (.ok rows) =
      (markerCells rows).foldl updateMax none := by
  cases rows with
  | nil => rfl
  | cons r rest =>
    show (if (r :: rest).isEmpty then none else (r :: rest).foldl updateRow none) = _
    rw [List.isEmpty_cons]
    simp only [if_false, Bool.false_eq_true]
    exact foldl_updateRow_eq (r :: rest) none

/-- C4: the freshness oracle yields None on every failure path (library
unavailable, no connection string, query error, no rows, or no datetime in
any row) rather than raising, and otherwise returns the maximum datetime
found among the two update columns across all returned rows. -/
theorem getModelLastUpdateMarker_spec (connStr e : String)
    (rows : List (List Cell)) :
    getModelLastUpdateMarker false (some connStr) (.ok rows) = none ∧
    getModelLastUpdateMarker true none (.ok rows) = none ∧
    getModelLastUpdateMarker true (some connStr) (.error e) = none ∧
    (getModelLastUpdateMarker true (some connStr) (.ok rows) = none ↔
      markerCells rows = []) ∧
    (∀ v, getModelLastUpdateMarker true (some connStr) (.ok rows) = some v →
      v ∈ markerCells rows ∧ ∀ w ∈ markerCells rows, w ≤ v) := by
  refine ⟨rfl, rfl, rfl, ?_, ?_⟩
  · rw [marker_ok_eq, foldl_updateMax_none]
    simp
  · intro v hv
    rw [marker_ok_eq] at hv
    obtain ⟨hmem, hub, _⟩ := foldl_updateMax_some _ _ _ hv
    rcases hmem with hm | hm
    · exact absurd hm (by simp)
    · exact ⟨hm, hub⟩

/-- C4 witness: concrete evaluation of the oracle on a three-row result
whose maximum datetime is 9. -/
theorem getModelLastUpdateMarker_spec_w :
    getModelLastUpdateMarker false (some "c")
      (.ok [[some 5, none], [none, some 9], [some 3]]) = none ∧
    getModelLastUpdateMarker true none
      (.ok [[some 5, none], [none, some 9], [some 3]]) = none ∧
    getModelLastUpdateMarker true (some "c") (.error "boom") = none ∧
    (getModelLastUpdateMarker true (some "c")
      (.ok [[some 5, none], [none, some 9], [some 3]]) = none ↔
      markerCells [[some 5, none], [none, some 9], [some 3]] = []) ∧
    (∀ v, getModelLastUpdateMarker true (some "c")
      (.ok [[some 5, none], [none, some 9], [some 3]]) = some v →
      v ∈ markerCells [[some 5, none], [none, some 9], [some 3]] ∧
      ∀ w ∈ markerCells [[some 5, none], [none, some 9], [some 3]], w ≤ v) :=
  getModelLastUpdateMarker_spec "c" "boom" [[some 5, none], [none, some 9], [some 3]]

/- ========== Pool lemmas ========== -/

theorem cleanupPool_single (key : String) (b : Bool) (prev now ttl : Nat)
    (h : now - prev ≤ ttl) :
    cleanupPool (singlePool key b prev) now ttl = singlePool key b prev := by
  funext k
  unfold cleanupPool singlePool
  by_cases hk : k = key
  · simp [hk, Nat.not_lt.mpr h]
  · simp [hk]

theorem cleanupPool_single_expired (key : String) (b : Bool) (prev now ttl : Nat)
    (h : now - prev > ttl) :
    cleanupPool (singlePool key b prev) now ttl key = none := by
  simp [cleanupPool, singlePool, h]

theorem getOrCreate_hit (key : String) (ttl now now2 prev c : Nat)
    (cr : Except String Unit) (h : now - prev ≤ ttl) :
    getOrCreate ⟨singlePool key true prev, c⟩ key now now2 ttl cr =
      (⟨singlePool key true now, c⟩, .ok ()) := by
  have hkey : cleanupPool (singlePool key true prev) now ttl key =
      some ⟨true, prev⟩ := by
    simp [cleanupPool, singlePool, Nat.not_lt.mpr h]
  have hpool : (fun k => if k = key then some (⟨true, now⟩ : PoolEntry)
      else cleanupPool (singlePool key true prev) now ttl k) =
      singlePool key true now := by
    funext k
    by_cases hk : k = key
    · simp [hk, singlePool]
    · simp [hk, cleanupPool, singlePool]
  simp only [getOrCreate, hkey]
  rw [hpool]
  simp

theorem getOrCreate_first (key : String) (ttl now now2 : Nat) :
    getOrCreate emptyPoolState key now now2 ttl (.ok ()) =
      (⟨singlePool key true now2, 1⟩, .ok ()) := rfl

theorem getOrCreate_expired (key : String) (ttl now now2 prev c : Nat)
    (h : now - prev > ttl) :
    getOrCreate ⟨singlePool key true prev, c⟩ key now now2 ttl (.ok ()) =
      (⟨singlePool key true now2, c + 1⟩, .ok ()) := by
  have hkey : cleanupPool (singlePool key true prev) now ttl key = none := by
    simp [cleanupPool, singlePool, h]
  have hpool : (fun k => if k = key then some (⟨true, now2⟩ : PoolEntry)
      else cleanupPool (singlePool key true prev) now ttl k) =
      singlePool key true now2 := by
    funext k
    by_cases hk : k = key
    · simp [hk, singlePool]
    · simp [hk, cleanupPool, singlePool]
  simp only [getOrCreate, hkey]
  rw [hpool]

theorem runLookups_hits (key : String) (ttl : Nat) (ls : List (Nat × Nat))
    (prev c : Nat) (hchain : chainWithinTTL ttl prev (ls.map Prod.fst)) :
    runLookups ⟨singlePool key true prev, c⟩ key ttl ls =
      ⟨singlePool key true ((ls.map Prod.fst).getLastD prev), c⟩ := by
  induction ls generalizing prev with
  | nil => rfl
  | cons p rest ih =>
    obtain ⟨now, now2⟩ := p
    obtain ⟨h1, h2⟩ := hchain
    show runLookups (getOrCreate ⟨singlePool key true prev, c⟩ key now now2 ttl
      (.ok ())).1 key ttl rest = _
    rw [getOrCreate_hit key ttl now now2 prev c (.ok ()) h1]
    rw [show ((⟨singlePool key true now, c⟩, Except.ok ()) :
      PoolState × Except String Unit).1 = ⟨singlePool key true now, c⟩ from rfl]
    rw [ih now h2, List.map_cons, List.getLastD_cons]

/-- C3: starting from an empty pool, the first lookup connects (count 1),
every further lookup within the TTL window of the previous stamp reuses the
pooled session without reconnecting, and once the idle time strictly
exceeds the TTL the lazy sweep drops the entry and the next lookup connects
a second time. -/
theorem pool_connect_once_until_ttl (key : String) (ttl n0 m0 tExp mExp : Nat)
    (rest : List (Nat × Nat))
    (hchain : chainWithinTTL ttl m0 (rest.map Prod.fst))
    (hexp : tExp - (rest.map Prod.fst).getLastD m0 > ttl) :
    (getOrCreate emptyPoolState key n0 m0 ttl (.ok ())).1.connectCount = 1 ∧
    (runLookups (getOrCreate emptyPoolState key n0 m0 ttl (.ok ())).1
       key ttl rest).connectCount = 1 ∧
    (runLookups (getOrCreate emptyPoolState key n0 m0 ttl (.ok ())).1
       key ttl rest).pool key =
      some ⟨true, (rest.map Prod.fst).getLastD m0⟩ ∧
    cleanupPool (runLookups (getOrCreate emptyPoolState key n0 m0 ttl (.ok ())).1
       key ttl rest).pool tExp ttl key = none ∧
    (getOrCreate (runLookups (getOrCreate emptyPoolState key n0 m0 ttl (.ok ())).1
       key ttl rest) key tExp mExp ttl (.ok ())).1.connectCount = 2 ∧
    (getOrCreate (runLookups (getOrCreate emptyPoolState key n0 m0 ttl (.ok ())).1
       key ttl rest) key tExp mExp ttl (.ok ())).1.pool key = some ⟨true, mExp⟩ := by
  have h1 : (getOrCreate emptyPoolState key n0 m0 ttl (.ok ())).1 =
      ⟨singlePool key true m0, 1⟩ := by
    rw [getOrCreate_first]
  rw [h1]
  have h2 := runLookups_hits key ttl rest m0 1 hchain
  rw [h2]
  have h3 := getOrCreate_expired key ttl tExp mExp
    ((rest.map Prod.fst).getLastD m0) 1 hexp
  rw [h3]
  refine ⟨rfl, rfl, ?_, ?_, rfl, ?_⟩
  · simp [singlePool]
  · exact cleanupPool_single_expired key true _ tExp ttl hexp
  · simp [singlePool]

/-- C3 witness: three lookups at times 0, 100, 200 with TTL 300, then one at
time 501. -/
theorem pool_connect_once_until_ttl_w :
    (getOrCreate emptyPoolState "k" 0 0 300 (.ok ())).1.connectCount = 1 ∧
    (runLookups (getOrCreate emptyPoolState "k" 0 0 300 (.ok ())).1
       "k" 300 [(100, 100), (200, 200)]).connectCount = 1 ∧
    (runLookups (getOrCreate emptyPoolState "k" 0 0 300 (.ok ())).1
       "k" 300 [(100, 100), (200, 200)]).pool "k" =
      some ⟨true, ([(100, 100), (200, 200)].map Prod.fst).getLastD 0⟩ ∧
    cleanupPool (runLookups (getOrCreate emptyPoolState "k" 0 0 300 (.ok ())).1
       "k" 300 [(100, 100), (200, 200)]).pool 501 300 "k" = none ∧
    (getOrCreate (runLookups (getOrCreate emptyPoolState "k" 0 0 300 (.ok ())).1
       "k" 300 [(100, 100), (200, 200)]) "k" 501 501 300 (.ok ())).1.connectCount = 2 ∧
    (getOrCreate (runLookups (getOrCreate emptyPoolState "k" 0 0 300 (.ok ())).1
       "k" 300 [(100, 100), (200, 200)]) "k" 501 501 300 (.ok ())).1.pool "k" =
      some ⟨true, 501⟩ :=
  pool_connect_once_until_ttl "k" 300 0 0 501 501 [(100, 100), (200, 200)]
    (by decide) (by decide)

/-- C7 counterexample: a lookup whose connect fails still removes the
expired entry of an unrelated key during its lazy sweep, so the pool map is
not left unchanged on error. -/
theorem pool_error_sweep_cex :
    (getOrCreate ⟨fun k => if k = "other" then some ⟨true, 0⟩ else none, 0⟩
       "k" 1000 1000 300 (.error "boom")).2 = .error "boom" ∧
    (fun k => if k = "other" then some (⟨true, 0⟩ : PoolEntry) else none) "other" =
      some ⟨true, 0⟩ ∧
    (getOrCreate ⟨fun k => if k = "other" then some ⟨true, 0⟩ else none, 0⟩
       "k" 1000 1000 300 (.error "boom")).1.pool "other" = none := by
  refine ⟨?_, rfl, ?_⟩ <;> rfl

/-- C7 amended: a failing connect propagates its error unmodified and is
invoked exactly once; no entry is stored for a key that had none after the
sweep; a pre-existing disconnected entry keeps only a refreshed last-used
stamp; every other key holds exactly what the lazy TTL sweep leaves. -/
theorem getOrCreate_connect_failure (st : PoolState) (key : String)
    (now now2 ttl : Nat) (msg : String)
    (hinv : ∀ e, cleanupPool st.pool now ttl key = some e → e.connected = false) :
    (getOrCreate st key now now2 ttl (.error msg)).2 = .error msg ∧
    (getOrCreate st key now now2 ttl (.error msg)).1.connectCount =
      st.connectCount + 1 ∧
    (∀ k, k ≠ key → (getOrCreate st key now now2 ttl (.error msg)).1.pool k =
      cleanupPool st.pool now ttl k) ∧
    (cleanupPool st.pool now ttl key = none →
      (getOrCreate st key now now2 ttl (.error msg)).1.pool key = none) ∧
    (∀ e, cleanupPool st.pool now ttl key = some e →
      (getOrCreate st key now now2 ttl (.error msg)).1.pool key =
        some ⟨e.connected, now⟩) := by
  refine ⟨?_, ?_, ?_, ?_, ?_⟩
  · cases hk : cleanupPool st.pool now ttl key with
    | none => simp [getOrCreate, hk]
    | some e => simp [getOrCreate, hk, hinv e hk]
  · cases hk : cleanupPool st.pool now ttl key with
    | none => simp [getOrCreate, hk]
    | some e => simp [getOrCreate, hk, hinv e hk]
  · intro k hkk
    cases hk : cleanupPool st.pool now ttl key with
    | none => simp [getOrCreate, hk]
    | some e => simp [getOrCreate, hk, hinv e hk, hkk]
  · intro hnone
    simp [getOrCreate, hnone]
  · intro e he
    simp [getOrCreate, he, hinv e he]

/-- C7 witness: failing connect on an empty pool. -/
theorem getOrCreate_connect_failure_w :
    (getOrCreate emptyPoolState "k" 0 0 300 (.error "boom")).2 = .error "boom" ∧
    (getOrCreate emptyPoolState "k" 0 0 300 (.error "boom")).1.connectCount =
      emptyPoolState.connectCount + 1 ∧
    (∀ k, k ≠ "k" → (getOrCreate emptyPoolState "k" 0 0 300 (.error "boom")).1.pool k =
      cleanupPool emptyPoolState.pool 0 300 k) ∧
    (cleanupPool emptyPoolState.pool 0 300 "k" = none →
      (getOrCreate emptyPoolState "k" 0 0 300 (.error "boom")).1.pool "k" = none) ∧
    (∀ e, cleanupPool emptyPoolState.pool 0 300 "k" = some e →
      (getOrCreate emptyPoolState "k" 0 0 300 (.error "boom")).1.pool "k" =
        some ⟨e.connected, 0⟩) :=
  getOrCreate_connect_failure emptyPoolState "k" 0 0 300 "boom"
    (fun e he => by cases he)

/- ========== Identity keys ========== -/

/-- C8 counterexample: the pool key carries all four identity fields while
the model cache key set by connect carries only endpoint and catalog, so
the two keys differ for the same connection. -/
theorem pool_cache_key_mismatch_cex :
    makePoolKey "e" "c" (some "t") (some "i") = "e|c|t|i" ∧
    (connectSetIdentity "e" "t" "i" "s" "c").modelKey = "e|c" ∧
    makePoolKey "e" "c" (some "t") (some "i") ≠
      (connectSetIdentity "e" "t" "i" "s" "c").modelKey := by
  refine ⟨rfl, rfl, ?_⟩
  decide

/-- C8 amended: the pool key is the ordered bar-joined concatenation of the
four identity fields; the model cache key is endpoint and catalog only (the
first two of those fields); neither depends on the client secret, so
connections differing only in the secret derive identical keys. -/
theorem identity_keys_secret_independent (e c t i s1 s2 : String)
    (tnOpt clOpt : Option String) :
    makePoolKey e c tnOpt clOpt =
      e ++ "|" ++ c ++ "|" ++ tnOpt.getD "" ++ "|" ++ clOpt.getD "" ∧
    (connectSetIdentity e t i s1 c).modelKey = e ++ "|" ++ c ∧
    (connectSetIdentity e t i s1 c).modelKey =
      (connectSetIdentity e t i s2 c).modelKey :=
  ⟨rfl, rfl, rfl⟩

/- ========== Metadata cache frame ========== -/

/-- C9: a get_table_schema call that misses the cache and stores a fresh
schema returns the fetch, leaves every other model key untouched, leaves
every other table entry of the same model untouched, and stores the fetch
under the requested table with the current marker. -/
theorem getTableSchema_frame {α β : Type} (cache : ModelCache α β)
    (cacheKey tableName : String) (cur : Option DT) (fetched : α)
    (hmiss : cachedSchemaLookup cache cacheKey tableName cur = none) :
    (getTableSchemaCached cache cacheKey tableName cur fetched).2 = fetched ∧
    (∀ k, k ≠ cacheKey →
      (getTableSchemaCached cache cacheKey tableName cur fetched).1 k = cache k) ∧
    (∀ t, t ≠ tableName →
      schemaAt (getTableSchemaCached cache cacheKey tableName cur fetched).1
        cacheKey t = schemaAt cache cacheKey t) ∧
    schemaAt (getTableSchemaCached cache cacheKey tableName cur fetched).1
      cacheKey tableName = some ⟨fetched, cur⟩ := by
  unfold getTableSchemaCached
  rw [hmiss]
  refine ⟨rfl, ?_, ?_, ?_⟩
  · intro k hk
    simp [hk]
  · intro t ht
    unfold schemaAt
    cases hc : cache cacheKey <;> simp [hc, ht]
  · unfold schemaAt
    cases hc : cache cacheKey <;> simp [hc]

/-- C9 witness: storing table t in an empty cache. -/
theorem getTableSchema_frame_w :
    (getTableSchemaCached (fun _ => none : ModelCache Nat Nat) "m" "t" none 7).2 = 7 ∧
    (∀ k, k ≠ "m" →
      (getTableSchemaCached (fun _ => none : ModelCache Nat Nat) "m" "t" none 7).1 k =
        (fun _ => none : ModelCache Nat Nat) k) ∧
    (∀ t, t ≠ "t" →
      schemaAt (getTableSchemaCached (fun _ => none : ModelCache Nat Nat)
        "m" "t" none 7).1 "m" t =
      schemaAt (fun _ => none : ModelCache Nat Nat) "m" t) ∧
    schemaAt (getTableSchemaCached (fun _ => none : ModelCache Nat Nat)
      "m" "t" none 7).1 "m" "t" = some ⟨7, none⟩ :=
  getTableSchema_frame (fun _ => none) "m" "t" none 7 rfl

/- ========== Relationship resolver lemmas ========== -/

theorem truthyStr_of_ne (s : String) (h : s ≠ "") :
    truthyStr (some s) = some s := by
  simp [truthyStr, h]

theorem processRel_at (tmap : Nat → Option String) (cmap : Nat → Option ColInfo)
    (m : RelMap) (r : RawRel) (t : String) :
    processRel tmap cmap m r t =
      (m t).map (fun l => l ++ relContrib tmap cmap t r) := by
  unfold processRel relContrib
  cases truthyStr (tmap r.fromTableId) with
  | none => cases hm : m t <;> simp [hm]
  | some fn =>
    cases truthyStr (tmap r.toTableId) with
    | none => cases hm : m t <;> simp [hm]
    | some tn =>
      cases cmap r.fromColumnId with
      | none => cases hm : m t <;> simp [hm]
      | some fci =>
        cases cmap r.toColumnId with
        | none => cases hm : m t <;> simp [hm]
        | some tci =>
          by_cases hf : fn = t
          · subst hf
            by_cases ht : tn = fn
            · subst ht
              cases hm : m tn <;> simp [appendRel, hm]
            · cases hm : m fn <;> simp [appendRel, hm, ht, Ne.symm ht]
          · by_cases ht : tn = t
            · subst ht
              cases hm : m tn <;> simp [appendRel, hm, hf, Ne.symm hf]
            · cases hm : m t <;>
                simp [appendRel, hm, hf, ht, Ne.symm hf, Ne.symm ht]

theorem batch_foldl_at (tmap : Nat → Option String) (cmap : Nat → Option ColInfo)
    (rs : List RawRel) (m : RelMap) (t : String) :
    (rs.foldl (processRel tmap cmap) m) t =
      (m t).map (fun l => l ++ batchRecsFor tmap cmap t rs) := by
  induction rs generalizing m with
  | nil => cases hm : m t <;> simp [batchRecsFor, hm]
  | cons r rest ih =>
    rw [List.foldl_cons, ih, processRel_at]
    cases hm : m t <;> simp [batchRecsFor, hm]

theorem getAllRelationshipsBatch_at (ts : List RawTable) (cs : List RawColumn)
    (rs : List RawRel) (tableNames : List String) (t : String) :
    getAllRelationshipsBatch ts cs rs tableNames t =
      if t ∈ tableNames then
        some (batchRecsFor (buildTableIdToName ts) (buildColumnIdToInfo cs) t rs)
      else none := by
  unfold getAllRelationshipsBatch
  rw [batch_foldl_at]
  unfold emptyRelMap
  by_cases h : t ∈ tableNames <;> simp [h]

theorem fallback_foldl_at (connected pyadomdAvailable : Bool)
    (perTableQuery : String → Except String (List RelRow))
    (tableNames : List String) (m : RelMap) (t : String) :
    (tableNames.foldl (fallbackStep connected pyadomdAvailable perTableQuery) m) t =
      if t ∈ tableNames then
        some (fallbackValue connected pyadomdAvailable perTableQuery t)
      else m t := by
  induction tableNames generalizing m with
  | nil => simp
  | cons n rest ih =>
    rw [List.foldl_cons, ih]
    by_cases hmem : t ∈ rest
    · simp [hmem, List.mem_cons_of_mem n hmem]
    · by_cases hn : t = n
      · subst hn
        simp [hmem, fallbackStep]
      · simp [hmem, hn, fallbackStep]

theorem getAllRelationshipsFallback_at (connected pyadomdAvailable : Bool)
    (perTableQuery : String → Except String (List RelRow))
    (tableNames : List String) (t : String) :
    getAllRelationshipsFallback connected pyadomdAvailable perTableQuery
        tableNames t =
      if t ∈ tableNames then
        some (fallbackValue connected pyadomdAvailable perTableQuery t)
      else none := by
  unfold getAllRelationshipsFallback
  rw [fallback_foldl_at]
  unfold emptyRelMap
  by_cases h : t ∈ tableNames <;> simp [h]

theorem getAllRelationships_ok (ts : List RawTable) (cs : List RawColumn)
    (rs : List RawRel) (connected pyadomdAvailable : Bool)
    (perTableQuery : String → Except String (List RelRow))
    (tableNames : List String) :
    getAllRelationships (.ok (ts, cs, rs)) connected pyadomdAvailable
        perTableQuery tableNames =
      getAllRelationshipsBatch ts cs rs tableNames := rfl

theorem getAllRelationships_err (e : String) (connected pyadomdAvailable : Bool)
    (perTableQuery : String → Except String (List RelRow))
    (tableNames : List String) :
    getAllRelationships (.error e) connected pyadomdAvailable
        perTableQuery tableNames =
      getAllRelationshipsFallback connected pyadomdAvailable perTableQuery
        tableNames := rfl

/-- C10: on both the batch path and the fallback path, the map returned by
get_all_relationships holds a (possibly empty) list exactly for the
requested table names; no view is attributed to any other key. -/
theorem getAllRelationships_keys
    (batchFetch : Except String (List RawTable × List RawColumn × List RawRel))
    (connected pyadomdAvailable : Bool)
    (perTableQuery : String → Except String (List RelRow))
    (tableNames : List String) (s : String) :
    ((getAllRelationships batchFetch connected pyadomdAvailable perTableQuery
        tableNames) s).isSome ↔ s ∈ tableNames := by
  cases batchFetch with
  | ok triple =>
    obtain ⟨ts, cs, rs⟩ := triple
    rw [getAllRelationships_ok, getAllRelationshipsBatch_at]
    by_cases h : s ∈ tableNames <;> simp [h]
  | error e =>
    rw [getAllRelationships_err, getAllRelationshipsFallback_at]
    by_cases h : s ∈ tableNames <;> simp [h]

/-- C5: when the batched round trip fails, every requested table gets
exactly its own per-table fallback result (so one table's failure cannot
abort the others), and a table whose individual fallback query fails ends
with an empty list. -/
theorem getAllRelationships_batch_failure (e : String)
    (connected pyadomdAvailable : Bool)
    (perTableQuery : String → Except String (List RelRow))
    (tableNames : List String) (t : String) (ht : t ∈ tableNames) :
    getAllRelationships (.error e) connected pyadomdAvailable perTableQuery
        tableNames t =
      some (fallbackValue connected pyadomdAvailable perTableQuery t) ∧
    (∀ msg, perTableQuery t = .error msg →
      getAllRelationships (.error e) connected pyadomdAvailable perTableQuery
        tableNames t = some []) := by
  constructor
  · rw [getAllRelationships_err, getAllRelationshipsFallback_at]
    simp [ht]
  · intro msg hq
    rw [getAllRelationships_err, getAllRelationshipsFallback_at]
    simp only [if_pos ht]
    cases connected <;> cases pyadomdAvailable <;>
      simp [fallbackValue, getTableRelationships, hq]

/-- C5 witness: batch failure with table A's own per-table query failing. -/
theorem getAllRelationships_batch_failure_w :
    getAllRelationships (.error "batch down") true true
        (fun _ => (Except.error "A down" : Except String (List RelRow)))
        ["A", "B"] "A" =
      some (fallbackValue true true
        (fun _ => (Except.error "A down" : Except String (List RelRow))) "A") ∧
    (∀ msg, (fun _ => (Except.error "A down" : Except String (List RelRow))) "A" =
        Except.error msg →
      getAllRelationships (.error "batch down") true true
        (fun _ => (Except.error "A down" : Except String (List RelRow)))
        ["A", "B"] "A" = some []) :=
  getAllRelationships_batch_failure "batch down" true true
    (fun _ => (Except.error "A down" : Except String (List RelRow))) ["A", "B"]
    "A" (by simp)

/-- C2 counterexample: a relationship whose ids all resolve but whose
to-table B is not among the requested names produces a single Many-to-One
view for A and no One-to-Many view at all. -/
theorem batch_two_views_cex :
    getAllRelationshipsBatch [⟨"A", 1⟩, ⟨"B", 2⟩]
        [⟨10, "x", 1⟩, ⟨20, "y", 2⟩]
        [⟨1, 2, 10, 20, true, 1, 1, 2, 1⟩] ["A"] "B" = none ∧
    getAllRelationshipsBatch [⟨"A", 1⟩, ⟨"B", 2⟩]
        [⟨10, "x", 1⟩, ⟨20, "y", 2⟩]
        [⟨1, 2, 10, 20, true, 1, 1, 2, 1⟩] ["A"] "A" =
      some [fromSideView "B" "x" "y" 2 1 true 1] := by
  constructor <;> rfl

/-- C2 amended: provided both resolved endpoint table names are among the
requested names (and are distinct), one raw relationship yields exactly two
views, a Many-to-One view in the from-table's list with cardinality
formatted from (fromCardinality, toCardinality) and a One-to-Many view in
the to-table's list with columns and cardinality order swapped; in
particular codes (2, 1) format to Many-to-One and swapped to One-to-Many. -/
theorem batch_two_views (ts : List RawTable) (cs : List RawColumn) (r : RawRel)
    (tableNames : List String) (fn tn : String) (fci tci : ColInfo)
    (hfn : buildTableIdToName ts r.fromTableId = some fn)
    (htn : buildTableIdToName ts r.toTableId = some tn)
    (hfne : fn ≠ "") (htne : tn ≠ "")
    (hfc : buildColumnIdToInfo cs r.fromColumnId = some fci)
    (htc : buildColumnIdToInfo cs r.toColumnId = some tci)
    (hne : fn ≠ tn) (hfmem : fn ∈ tableNames) (htmem : tn ∈ tableNames) :
    getAllRelationshipsBatch ts cs [r] tableNames fn =
      some [fromSideView tn fci.name tci.name r.fromCardinality
        r.toCardinality r.isActive r.crossFilteringBehavior] ∧
    getAllRelationshipsBatch ts cs [r] tableNames tn =
      some [toSideView fn fci.name tci.name r.fromCardinality
        r.toCardinality r.isActive r.crossFilteringBehavior] ∧
    (∀ s ∈ tableNames, s ≠ fn → s ≠ tn →
      getAllRelationshipsBatch ts cs [r] tableNames s = some []) ∧
    formatCardinality 2 1 = "Many-to-One" ∧
    formatCardinality 1 2 = "One-to-Many" := by
  have hcontrib : ∀ s, relContrib (buildTableIdToName ts)
      (buildColumnIdToInfo cs) s r =
      (if fn = s then [fromSideView tn fci.name tci.name r.fromCardinality
        r.toCardinality r.isActive r.crossFilteringBehavior] else []) ++
      (if tn = s then [toSideView fn fci.name tci.name r.fromCardinality
        r.toCardinality r.isActive r.crossFilteringBehavior] else []) := by
    intro s
    unfold relContrib
    rw [hfn, htn, truthyStr_of_ne fn hfne, truthyStr_of_ne tn htne, hfc, htc]
  refine ⟨?_, ?_, ?_, rfl, rfl⟩
  · rw [getAllRelationshipsBatch_at]
    simp [hfmem, batchRecsFor, hcontrib, Ne.symm hne]
  · rw [getAllRelationshipsBatch_at]
    simp [htmem, batchRecsFor, hcontrib, hne]
  · intro s hs hsf hst
    rw [getAllRelationshipsBatch_at]
    simp [hs, batchRecsFor, hcontrib, Ne.symm hsf, Ne.symm hst]

/-- C2 witness: concrete two-table model with both endpoints requested. -/
theorem batch_two_views_w :
    getAllRelationshipsBatch [⟨"A", 1⟩, ⟨"B", 2⟩] [⟨10, "x", 1⟩, ⟨20, "y", 2⟩]
        [⟨1, 2, 10, 20, true, 1, 1, 2, 1⟩] ["A", "B", "C"] "A" =
      some [fromSideView "B" "x" "y" 2 1 true 1] ∧
    getAllRelationshipsBatch [⟨"A", 1⟩, ⟨"B", 2⟩] [⟨10, "x", 1⟩, ⟨20, "y", 2⟩]
        [⟨1, 2, 10, 20, true, 1, 1, 2, 1⟩] ["A", "B", "C"] "B" =
      some [toSideView "A" "x" "y" 2 1 true 1] ∧
    (∀ s ∈ ["A", "B", "C"], s ≠ "A" → s ≠ "B" →
      getAllRelationshipsBatch [⟨"A", 1⟩, ⟨"B", 2⟩] [⟨10, "x", 1⟩, ⟨20, "y", 2⟩]
        [⟨1, 2, 10, 20, true, 1, 1, 2, 1⟩] ["A", "B", "C"] s = some []) ∧
    formatCardinality 2 1 = "Many-to-One" ∧
    formatCardinality 1 2 = "One-to-Many" :=
  batch_two_views [⟨"A", 1⟩, ⟨"B", 2⟩] [⟨10, "x", 1⟩, ⟨20, "y", 2⟩]
    ⟨1, 2, 10, 20, true, 1, 1, 2, 1⟩ ["A", "B", "C"] "A" "B" ⟨"x", 1⟩ ⟨"y", 2⟩
    rfl rfl (by decide) (by decide) rfl rfl (by decide) (by simp) (by simp)

/- ========== Batch/fallback correspondence (C6) ========== -/

theorem buildTableIdToName_aux (ts : List RawTable) (m : Nat → Option String)
    (i : Nat) (hname : ∀ a ∈ ts, a.name ≠ "")
    (hnd : (ts.map RawTable.id).Nodup) :
    ts.foldl (fun m a =>
      if a.name ≠ "" then fun j => if j = a.id then some a.name else m j
      else m) m i =
      match ts.find? (fun a => a.id = i) with
      | some a => some a.name
      | none => m i := by
  induction ts generalizing m with
  | nil => simp
  | cons a rest ih =>
    have ha : a.name ≠ "" := hname a (List.mem_cons_self a rest)
    obtain ⟨hnotmem, hnd'⟩ := List.nodup_cons.mp hnd
    rw [List.foldl_cons,
      ih _ (fun b hb => hname b (List.mem_cons_of_mem a hb)) hnd']
    by_cases hid : a.id = i
    · have hfind : rest.find? (fun b => b.id = i) = none := by
        rw [List.find?_eq_none]
        intro b hb hpb
        have hbid : b.id = i := by simpa using hpb
        exact hnotmem (List.mem_map.mpr ⟨b, hb, hbid.trans hid.symm⟩)
      rw [hfind, List.find?_cons_of_pos _ (by simp [hid])]
      simp [ha, hid]
    · rw [List.find?_cons_of_neg _ (by simp [hid])]
      cases hf : rest.find? (fun b => b.id = i) with
      | some b => rfl
      | none => simp [ha, Ne.symm hid]

theorem buildTableIdToName_eq_find (ts : List RawTable)
    (hname : ∀ a ∈ ts, a.name ≠ "") (hnd : (ts.map RawTable.id).Nodup)
    (i : Nat) :
    buildTableIdToName ts i =
      (ts.find? (fun a => a.id = i)).map RawTable.name := by
  unfold buildTableIdToName
  rw [buildTableIdToName_aux ts _ i hname hnd]
  cases ts.find? (fun a => a.id = i) <;> rfl

theorem buildColumnIdToInfo_aux (cs : List RawColumn)
    (m : Nat → Option ColInfo) (i : Nat)
    (hcol : ∀ c ∈ cs, c.id ≠ 0 ∧ c.explicitName ≠ "")
    (hnd : (cs.map RawColumn.id).Nodup) :
    cs.foldl (fun m c =>
      if c.id ≠ 0 ∧ c.explicitName ≠ "" then
        fun j => if j = c.id then some ⟨c.explicitName, c.tableId⟩ else m j
      else m) m i =
      match cs.find? (fun c => c.id = i) with
      | some c => some ⟨c.explicitName, c.tableId⟩
      | none => m i := by
  induction cs generalizing m with
  | nil => simp
  | cons c rest ih =>
    have hc := hcol c (List.mem_cons_self c rest)
    obtain ⟨hnotmem, hnd'⟩ := List.nodup_cons.mp hnd
    rw [List.foldl_cons,
      ih _ (fun b hb => hcol b (List.mem_cons_of_mem c hb)) hnd']
    by_cases hid : c.id = i
    · have hfind : rest.find? (fun b => b.id = i) = none := by
        rw [List.find?_eq_none]
        intro b hb hpb
        have hbid : b.id = i := by simpa using hpb
        exact hnotmem (List.mem_map.mpr ⟨b, hb, hbid.trans hid.symm⟩)
      rw [hfind, List.find?_cons_of_pos _ (by simp [hid])]
      have hi0 : i ≠ 0 := hid ▸ hc.1
      simp [hc.1, hc.2, hid, hi0]
    · rw [List.find?_cons_of_neg _ (by simp [hid])]
      cases hf : rest.find? (fun b => b.id = i) with
      | some b => rfl
      | none => simp [hc.1, hc.2, Ne.symm hid]

theorem buildColumnIdToInfo_eq_find (cs : List RawColumn)
    (hcol : ∀ c ∈ cs, c.id ≠ 0 ∧ c.explicitName ≠ "")
    (hnd : (cs.map RawColumn.id).Nodup) (i : Nat) :
    buildColumnIdToInfo cs i =
      (cs.find? (fun c => c.id = i)).map
        (fun c => (⟨c.explicitName, c.tableId⟩ : ColInfo)) := by
  unfold buildColumnIdToInfo
  rw [buildColumnIdToInfo_aux cs _ i hcol hnd]
  cases cs.find? (fun c => c.id = i) <;> rfl

theorem edgeB_fromSide (tn fcn tcn : String) (fc tc : Nat) (ia : Bool)
    (cfb : Nat) :
    edgeOfBatchView (fromSideView tn fcn tcn fc tc ia cfb) =
      (some (.s tn), some (.s fcn), some (.s tcn)) := rfl

theorem edgeB_toSide (fn fcn tcn : String) (fc tc : Nat) (ia : Bool)
    (cfb : Nat) :
    edgeOfBatchView (toSideView fn fcn tcn fc tc ia cfb) =
      (some (.s fn), some (.s tcn), some (.s fcn)) := rfl

theorem edgePT_out (t : String) (row : RelRow) (h : row.fromTable = t) :
    edgeOfPerTableView (perTableView t row) =
      (some (.s row.toTable), some (.s row.fromColumn),
        some (.s row.toColumn)) := by
  unfold perTableView
  rw [if_pos h]
  rfl

theorem edgePT_in (t : String) (row : RelRow) (h : ¬row.fromTable = t) :
    edgeOfPerTableView (perTableView t row) =
      (some (.s row.fromTable), some (.s row.toColumn),
        some (.s row.fromColumn)) := by
  unfold perTableView
  rw [if_neg h]
  rfl

theorem batch_fallback_edges (ts : List RawTable) (cs : List RawColumn)
    (rs : List RawRel) (t : String)
    (hname : ∀ a ∈ ts, a.name ≠ "") (hndt : (ts.map RawTable.id).Nodup)
    (hcol : ∀ c ∈ cs, c.id ≠ 0 ∧ c.explicitName ≠ "")
    (hndc : (cs.map RawColumn.id).Nodup)
    (hres : ∀ r ∈ rs, RelResolvable ts cs r) :
    (batchRecsFor (buildTableIdToName ts) (buildColumnIdToInfo cs) t rs).map
        edgeOfBatchView =
      ((perTableQueryRows ts cs rs t).map (perTableView t)).map
        edgeOfPerTableView := by
  induction rs with
  | nil => rfl
  | cons r rest ih =>
    have ih' := ih (fun x hx => hres x (List.mem_cons_of_mem r hx))
    obtain ⟨fc, tc, ft, tt, hfc, htc, hft, htt, hfid, htid, hne⟩ :=
      hres r (List.mem_cons_self r rest)
    have hftm : ts.find? (fun a => a.id = r.fromTableId) = some ft := by
      rw [← hfid]; exact hft
    have httm : ts.find? (fun a => a.id = r.toTableId) = some tt := by
      rw [← htid]; exact htt
    have htmapf : buildTableIdToName ts r.fromTableId = some ft.name := by
      rw [buildTableIdToName_eq_find ts hname hndt, hftm]; rfl
    have htmapt : buildTableIdToName ts r.toTableId = some tt.name := by
      rw [buildTableIdToName_eq_find ts hname hndt, httm]; rfl
    have hcmapf : buildColumnIdToInfo cs r.fromColumnId =
        some ⟨fc.explicitName, fc.tableId⟩ := by
      rw [buildColumnIdToInfo_eq_find cs hcol hndc, hfc]; rfl
    have hcmapt : buildColumnIdToInfo cs r.toColumnId =
        some ⟨tc.explicitName, tc.tableId⟩ := by
      rw [buildColumnIdToInfo_eq_find cs hcol hndc, htc]; rfl
    have hftn : ft.name ≠ "" := hname ft (List.mem_of_find?_eq_some hft)
    have httn : tt.name ≠ "" := hname tt (List.mem_of_find?_eq_some htt)
    have hcontrib : relContrib (buildTableIdToName ts) (buildColumnIdToInfo cs)
        t r =
        (if ft.name = t then
          [fromSideView tt.name fc.explicitName tc.explicitName
            r.fromCardinality r.toCardinality r.isActive
            r.crossFilteringBehavior] else []) ++
        (if tt.name = t then
          [toSideView ft.name fc.explicitName tc.explicitName
            r.fromCardinality r.toCardinality r.isActive
            r.crossFilteringBehavior] else []) := by
      unfold relContrib
      rw [htmapf, htmapt, truthyStr_of_ne _ hftn, truthyStr_of_ne _ httn,
        hcmapf, hcmapt]
    have hqrows : perTableQueryRows ts cs (r :: rest) t =
        (if ft.name = t ∨ tt.name = t then
          [(⟨ft.name, fc.explicitName, tt.name, tc.explicitName,
            r.fromCardinality, r.toCardinality,
            r.crossFilteringBehavior⟩ : RelRow)] else []) ++
        perTableQueryRows ts cs rest t := by
      unfold perTableQueryRows
      rw [List.filterMap_cons]
      simp only [hfc, htc, hft, htt]
      by_cases hcase : ft.name = t ∨ tt.name = t
      · rw [if_pos hcase, if_pos hcase]
        rfl
      · rw [if_neg hcase, if_neg hcase]
        rfl
    rw [batchRecsFor, hcontrib, hqrows]
    by_cases hf : ft.name = t
    · have ht' : ¬tt.name = t := fun h => hne (by rw [hf, h])
      rw [if_pos hf, if_neg ht', if_pos (Or.inl hf)]
      simp only [List.append_nil, List.map_cons, List.map_append,
        List.map_nil, List.nil_append]
      rw [ih', edgeB_fromSide, edgePT_out t _ hf]
    · by_cases ht' : tt.name = t
      · rw [if_neg hf, if_pos ht', if_pos (Or.inr ht')]
        simp only [List.map_cons, List.map_append, List.map_nil,
          List.nil_append]
        rw [ih', edgeB_toSide, edgePT_in t _ hf]
      · rw [if_neg hf, if_neg ht',
          if_neg (fun h => h.elim hf ht')]
        simp only [List.map_nil, List.nil_append]
        exact ih'

/-- C6 counterexample: for an unaffected table the fallback path returns a
record in the per-table shape (direction/related_table/...), not the batch
record; moreover the to-side table B gets cardinality Many-to-One from the
fallback where the batch path gives One-to-Many. -/
theorem fallback_format_differs_cex :
    getAllRelationshipsBatch [⟨"A", 1⟩, ⟨"B", 2⟩] [⟨10, "x", 1⟩, ⟨20, "y", 2⟩]
        [⟨1, 2, 10, 20, true, 1, 1, 2, 1⟩] ["A", "B"] "A" =
      some [fromSideView "B" "x" "y" 2 1 true 1] ∧
    getAllRelationshipsFallback true true
        (fun s => .ok (perTableQueryRows [⟨"A", 1⟩, ⟨"B", 2⟩]
          [⟨10, "x", 1⟩, ⟨20, "y", 2⟩] [⟨1, 2, 10, 20, true, 1, 1, 2, 1⟩] s))
        ["A", "B"] "A" =
      some [perTableView "A" ⟨"A", "x", "B", "y", 2, 1, 1⟩] ∧
    getAllRelationshipsBatch [⟨"A", 1⟩, ⟨"B", 2⟩] [⟨10, "x", 1⟩, ⟨20, "y", 2⟩]
        [⟨1, 2, 10, 20, true, 1, 1, 2, 1⟩] ["A", "B"] "A" ≠
      getAllRelationshipsFallback true true
        (fun s => .ok (perTableQueryRows [⟨"A", 1⟩, ⟨"B", 2⟩]
          [⟨10, "x", 1⟩, ⟨20, "y", 2⟩] [⟨1, 2, 10, 20, true, 1, 1, 2, 1⟩] s))
        ["A", "B"] "A" ∧
    (getAllRelationshipsBatch [⟨"A", 1⟩, ⟨"B", 2⟩] [⟨10, "x", 1⟩, ⟨20, "y", 2⟩]
        [⟨1, 2, 10, 20, true, 1, 1, 2, 1⟩] ["A", "B"] "B").map
        (fun l => l.map (fun d => dictGet d "cardinality")) =
      some [some (.s "One-to-Many")] ∧
    (getAllRelationshipsFallback true true
        (fun s => .ok (perTableQueryRows [⟨"A", 1⟩, ⟨"B", 2⟩]
          [⟨10, "x", 1⟩, ⟨20, "y", 2⟩] [⟨1, 2, 10, 20, true, 1, 1, 2, 1⟩] s))
        ["A", "B"] "B").map
        (fun l => l.map (fun d => dictGet d "cardinality")) =
      some [some (.s "Many-to-One")] := by
  refine ⟨rfl, rfl, by decide, rfl, rfl⟩

/-- C6 amended: for a consistently resolvable raw model (unique ids,
non-falsy names and ids, no self-relationships) and an unaffected requested
table, the fallback path returns one record per relationship involving the
table describing the same edge (same related table, same local and related
columns, in the same order) as the batch path, but in the per-table record
shape rather than as the identical record. -/
theorem fallback_same_edges (ts : List RawTable) (cs : List RawColumn)
    (rs : List RawRel) (tableNames : List String) (t : String)
    (hname : ∀ a ∈ ts, a.name ≠ "") (hndt : (ts.map RawTable.id).Nodup)
    (hcol : ∀ c ∈ cs, c.id ≠ 0 ∧ c.explicitName ≠ "")
    (hndc : (cs.map RawColumn.id).Nodup)
    (hres : ∀ r ∈ rs, RelResolvable ts cs r)
    (ht : t ∈ tableNames) :
    (getAllRelationshipsBatch ts cs rs tableNames t).map
        (fun l => l.map edgeOfBatchView) =
      (getAllRelationshipsFallback true true
        (fun s => .ok (perTableQueryRows ts cs rs s)) tableNames t).map
        (fun l => l.map edgeOfPerTableView) := by
  rw [getAllRelationshipsBatch_at, getAllRelationshipsFallback_at,
    if_pos ht, if_pos ht]
  have hval : fallbackValue true true
      (fun s => .ok (perTableQueryRows ts cs rs s)) t =
      (perTableQueryRows ts cs rs t).map (perTableView t) := rfl
  rw [hval]
  exact congrArg some
    (batch_fallback_edges ts cs rs t hname hndt hcol hndc hres)

/-- C6 witness: the two-table model, batch and fallback agreeing on edges
for table A. -/
theorem fallback_same_edges_w :
    (getAllRelationshipsBatch [⟨"A", 1⟩, ⟨"B", 2⟩] [⟨10, "x", 1⟩, ⟨20, "y", 2⟩]
        [⟨1, 2, 10, 20, true, 1, 1, 2, 1⟩] ["A", "B"] "A").map
        (fun l => l.map edgeOfBatchView) =
      (getAllRelationshipsFallback true true
        (fun s => .ok (perTableQueryRows [⟨"A", 1⟩, ⟨"B", 2⟩]
          [⟨10, "x", 1⟩, ⟨20, "y", 2⟩] [⟨1, 2, 10, 20, true, 1, 1, 2, 1⟩] s))
        ["A", "B"] "A").map
        (fun l => l.map edgeOfPerTableView) :=
  fallback_same_edges [⟨"A", 1⟩, ⟨"B", 2⟩] [⟨10, "x", 1⟩, ⟨20, "y", 2⟩]
    [⟨1, 2, 10, 20, true, 1, 1, 2, 1⟩] ["A", "B"] "A"
    (by decide) (by decide) (by decide) (by decide)
    (by
      intro r hr
      rw [List.mem_singleton] at hr
      subst hr
      exact ⟨⟨10, "x", 1⟩, ⟨20, "y", 2⟩, ⟨"A", 1⟩, ⟨"B", 2⟩,
        rfl, rfl, rfl, rfl, rfl, rfl, by decide⟩)
    (by simp)

end PowerBI
